import Mathlib

/-!
Verification of the entity-resolution / schema / filter-builder core of the
FnO-MCP server (TypeScript sources under `src/`).  The TypeScript code is
shallowly embedded: pure logic becomes Lean functions, the stateful lazy
caches become an explicit state machine, and network fetches become explicit
parameters (the value the network would return).
-/

namespace FnO

/-! JavaScript string primitives used by the code, embedded as structural
functions on the character list of a `String` (the byte-position-based
implementations in core Lean are equivalent but do not reduce inside the
kernel, which the concrete witnesses below need). -/

/-- JS `s.toLowerCase()` (character-wise lowercasing). -/
def toLowerStr (s : String) : String := ⟨s.data.map Char.toLower⟩

/-- JS `s.startsWith(p)`. -/
def strStartsWith (s p : String) : Bool := p.data.isPrefixOf s.data

/-- JS `s.endsWith(p)`. -/
def strEndsWith (s p : String) : Bool := p.data.isSuffixOf s.data

/-- JS `s.slice(0, -n)`: the string without its last `n` characters. -/
def strDropRight (s : String) (n : Nat) : String := ⟨s.data.take (s.data.length - n)⟩

/-- A field of a parsed entity schema, as produced by
`EntityManager.fetchAndParseMetadata` (src/entityManager.ts): the property's
`@_Name`, its `@_Type`, and whether its name occurs among the entity's key
`PropertyRef`s. -/
structure SchemaField where
  name : String
  type : String
  isKey : Bool
  deriving DecidableEq, Repr

/-- A parsed entity schema (interface `EntitySchema` in src/entityManager.ts). -/
structure EntitySchema where
  name : String
  fields : List SchemaField
  deriving DecidableEq, Repr

/-- Case-insensitive field lookup used by `buildSmartFilterString`
(src/mcp-server.ts): `schema.fields.find(f => f.name.toLowerCase() === key.toLowerCase())`. -/
def findField (schema : EntitySchema) (key : String) : Option SchemaField :=
  schema.fields.find? (fun f => toLowerStr f.name == toLowerStr key)

/-- The body of the `Object.entries(filterObject).map` callback in
`buildSmartFilterString` (src/mcp-server.ts lines 36-56): produces the OData
clause for one filter entry together with the `console.warn` message emitted
on the unknown-field fallback path (`none` when no warning is produced). -/
def clauseFor (schema : EntitySchema) (key value : String) : String × Option String :=
  match findField schema key with
  | none =>
      (key ++ " eq '" ++ value ++ "'",
       some ("Field '" ++ key ++ "' not found in schema for '" ++ schema.name ++
             "'. Defaulting to string filter."))
  | some f =>
      if strStartsWith f.type "Edm." then
        (f.name ++ " eq '" ++ value ++ "'", none)
      else
        (f.name ++ " eq " ++ f.type ++ "'" ++ value ++ "'", none)

/-- `buildSmartFilterString` (src/mcp-server.ts lines 31-60).  The filter
object is an association list in JS insertion order (`Object.entries` order);
`none` models an absent argument.  The result pairs the returned filter
string (`none` models the function returning `null`) with the list of
warning messages emitted via `console.warn`, in emission order. -/
def buildSmartFilterString (filterObject : Option (List (String × String)))
    (schema : Option EntitySchema) : Option String × List String :=
  match filterObject, schema with
  | none, _ => (none, [])
  | _, none => (none, [])
  | some fo, some sch =>
    if fo.isEmpty then (none, [])
    else
      let clauses := fo.map (fun kv => clauseFor sch kv.1 kv.2)
      (some (String.intercalate " and " (clauses.map Prod.fst)),
       clauses.filterMap Prod.snd)

/-! ## Metadata document and `fetchAndParseMetadata` -/

/-- A `PropertyRef` element of an entity type's `Key` in the parsed CSDL
metadata (`pr['@_Name']` in src/entityManager.ts). -/
structure PropertyRef where
  name : String
  deriving DecidableEq, Repr

/-- A `Property` element of an entity type in the parsed CSDL metadata
(`@_Name` / `@_Type` attributes). -/
structure PropertyDecl where
  name : String
  type : String
  deriving DecidableEq, Repr

/-- An `EntityType` declaration of the metadata document: its `@_Name`, its
key `PropertyRef`s (empty when the `Key` element is absent) and its
`Property` children.  The XML parser's single-element-vs-array normalization
performed by the code is already absorbed into the list representation. -/
structure EntityTypeDecl where
  name : String
  keyRefs : List PropertyRef
  properties : List PropertyDecl
  deriving DecidableEq, Repr

/-- An `EntitySet` declaration of the service's `EntityContainer`: the public
entity-set name and the entity-type name it is declared to hold.  The
container is part of every CSDL metadata document; `fetchAndParseMetadata`
in src/entityManager.ts never reads it. -/
structure EntitySetDecl where
  name : String
  entityType : String
  deriving DecidableEq, Repr

/-- One `Schema` section of the metadata document. -/
structure SchemaDecl where
  entityTypes : List EntityTypeDecl
  entitySets : List EntitySetDecl
  deriving DecidableEq, Repr

/-- The parsed `edmx:Edmx / edmx:DataServices` content of the `$metadata`
document: its `Schema` sections. -/
structure MetadataDoc where
  schemas : List SchemaDecl
  deriving DecidableEq, Repr

/-- JS object assignment `m[k] = v`: replace the value of an existing key in
place, otherwise append the new key. -/
def recordSet {α : Type} : List (String × α) → String → α → List (String × α)
  | [], k, v => [(k, v)]
  | p :: rest, k, v => if p.1 == k then (k, v) :: rest else p :: recordSet rest k v

/-- JS object read `m[k]`: the value of the first (hence only) occurrence of
the key, `none` when absent (`undefined`). -/
def recordGet {α : Type} : List (String × α) → String → Option α
  | [], _ => none
  | p :: rest, k => if p.1 == k then some p.2 else recordGet rest k

/-- The per-`EntityType` body of the parsing loop in
`EntityManager.fetchAndParseMetadata` (src/entityManager.ts lines 228-247):
each property becomes a field whose `isKey` flag records membership of its
name among the key `PropertyRef` names. -/
def parseEntityType (e : EntityTypeDecl) : EntitySchema :=
  { name := e.name,
    fields := e.properties.map fun p =>
      { name := p.name, type := p.type,
        isKey := (e.keyRefs.map PropertyRef.name).contains p.name } }

/-- `EntityManager.fetchAndParseMetadata` (src/entityManager.ts lines
213-252), applied to an already-fetched, already-XML-parsed document: folds
every `EntityType` of every `Schema` section into `finalSchemaMap`, keyed by
the entity type's `@_Name`.  The `EntityContainer` / `EntitySet`
declarations of the document are not consulted. -/
def fetchAndParseMetadata (doc : MetadataDoc) : List (String × EntitySchema) :=
  doc.schemas.foldl
    (fun m schema =>
      schema.entityTypes.foldl (fun m e => recordSet m e.name (parseEntityType e)) m)
    []

/-- `EntityManager.getEntitySchema` (src/entityManager.ts lines 139-154),
applied to an already-populated `schemaCache`: direct lookup of the requested
name, then — only when the name ends in `'s'` — a fallback lookup of the name
with its final character removed (`entityName.slice(0, -1)`). -/
def getEntitySchema (schemaCache : List (String × EntitySchema))
    (entityName : String) : Option EntitySchema :=
  match recordGet schemaCache entityName with
  | some s => some s
  | none =>
    if strEndsWith entityName "s" then recordGet schemaCache (strDropRight entityName 1)
    else none

/-- All entity-type names declared by the document's `EntityType` elements;
these are exactly the keys `fetchAndParseMetadata` can produce. -/
def declaredTypeNames (doc : MetadataDoc) : List String :=
  doc.schemas.flatMap (fun sch => sch.entityTypes.map EntityTypeDecl.name)

/-- Written from the spec, for comparison with the code (spec §3
`EntitySetIndex`): the entity-set-name → entity-type-name map collected from
the container declarations of every `Schema` section. -/
def specEntitySetIndex (doc : MetadataDoc) : List (String × String) :=
  doc.schemas.flatMap (fun sch => sch.entitySets.map (fun s => (s.name, s.entityType)))

/-- Lookup in the spec's `EntitySetIndex`. -/
def specIndexLookup (doc : MetadataDoc) (setName : String) : Option String :=
  recordGet (specEntitySetIndex doc) setName

/-! ## Entity catalog and fuzzy resolution (`findBestMatch`) -/

/-- A record of the `/data` service document (interface `ODataEntity` in
src/entityManager.ts): the logical display name and the canonical URL
segment used in API calls. -/
structure ODataEntity where
  name : String
  url : String
  deriving DecidableEq, Repr

/-- The fuzzy-matching acceptance threshold `FUZZY_THRESHOLD = 0.6` of
src/entityManager.ts (fuse.js score: `0` = exact match, `1` = match
anything). -/
def FUZZY_THRESHOLD : ℚ := ⟨3, 5, by decide, by decide⟩

/-- `EntityManager.fetchEntityList` (src/entityManager.ts lines 159-185),
applied to the outcome of the network call: a successful response yields its
entity records, and any failure (non-ok status or a thrown error) is caught
and becomes the empty list. -/
def fetchEntityList (response : Except String (List ODataEntity)) : List ODataEntity :=
  match response with
  | .ok entities => entities
  | .error _ => []

/-- Modelled from the spec: the similarity score fuse.js assigns one catalog
entry, searching over the keys `name` and `url` (spec §4.2: a normalized
score in `[0,1]` where `0` means identical; the entry's score is its best
score over the indexed keys).  The per-string scoring function itself stays
abstract — fuse.js is an external library whose code is not in the
repository — and theorems state the properties of `score` they need. -/
def entityScore (score : String → String → ℚ) (query : String) (e : ODataEntity) : ℚ :=
  min (score query e.name) (score query e.url)

/-- Modelled from the spec: `this.fuse.search(query)` restricted to the one
result the code reads (`results[0]`).  fuse.js returns the entries scoring
at or below the configured `threshold`, best (lowest) score first, earlier
catalog entries first on ties (spec §4.2); `results[0]` is therefore the
threshold-filtered score minimizer, first-seen on ties. -/
def fuseSearch (score : String → String → ℚ) (catalog : List ODataEntity)
    (query : String) : Option (ODataEntity × ℚ) :=
  ((catalog.map (fun e => (e, entityScore score query e))).filter
      (fun r => r.2 ≤ FUZZY_THRESHOLD)).argmin Prod.snd

/-- `EntityManager.findBestMatch` (src/entityManager.ts lines 112-132) after
the cache is populated: `null` for an empty catalog, otherwise the best
result's `url` when its score clears `FUZZY_THRESHOLD`, else `null`. -/
def findBestMatchResolved (score : String → String → ℚ)
    (entityCache : List ODataEntity) (query : String) : Option String :=
  if entityCache.isEmpty then none
  else
    match fuseSearch score entityCache query with
    | some r => if r.2 ≤ FUZZY_THRESHOLD then some r.1.url else none
    | none => none

/-! ## The lazy cache under concurrent callers

`findBestMatch` and `getEntitySchema` both populate their cache with the
pattern `if (!this.cache) { this.cache = await fetch(); }`: the *check* of
the cache and the *assignment* of the fetched value are separated by an
`await` suspension point.  The state machine below embeds that pattern for
an arbitrary cached value type: each caller's `check` event performs the
`if (!this.cache)` test (starting a fetch when the cache is empty), and its
`complete` event performs the assignment once its own fetch resolves.
`fetchCount` counts the network requests issued; all fetches of one run
return the same value `net` (the network is deterministic here). -/

/-- Where one caller of the lazy-populate pattern stands: before its cache
check, suspended on its own fetch, or finished. -/
inductive CallerPhase where
  | start
  | waiting
  | done
  deriving DecidableEq, Repr

/-- The shared state of one lazy cache plus the phase of every caller. -/
structure CacheSys (α : Type) where
  cache : Option α
  fetchCount : Nat
  callers : Nat → CallerPhase

/-- An event-loop step: caller `i` runs its cache check, or caller `i`'s
in-flight fetch resolves. -/
inductive CacheEv where
  | check (i : Nat)
  | complete (i : Nat)
  deriving DecidableEq, Repr

/-- One scheduler step of the lazy-populate pattern of
src/entityManager.ts (lines 113-120 and 140-143).  `check i`: if the cache
is unpopulated, caller `i` issues a fetch and suspends; if it is populated,
caller `i` proceeds synchronously and finishes.  `complete i`: caller `i`'s
fetch resolves and it assigns the fetched value to the cache. -/
def cacheStep {α : Type} (net : α) (s : CacheSys α) : CacheEv → CacheSys α
  | .check i =>
    match s.callers i with
    | .start =>
      match s.cache with
      | none =>
        { cache := s.cache, fetchCount := s.fetchCount + 1,
          callers := fun j => if j = i then .waiting else s.callers j }
      | some _ =>
        { cache := s.cache, fetchCount := s.fetchCount,
          callers := fun j => if j = i then .done else s.callers j }
    | _ => s
  | .complete i =>
    match s.callers i with
    | .waiting =>
      { cache := some net, fetchCount := s.fetchCount,
        callers := fun j => if j = i then .done else s.callers j }
    | _ => s

/-- Run a whole event-loop schedule. -/
def runCache {α : Type} (net : α) (s : CacheSys α) (evs : List CacheEv) : CacheSys α :=
  evs.foldl (cacheStep net) s

/-- The fresh state: unpopulated cache, no fetches, every caller yet to run. -/
def initCache (α : Type) : CacheSys α :=
  { cache := none, fetchCount := 0, callers := fun _ => .start }

/-! ## Concrete inputs used by the witnesses and counterexamples -/

/-- A two-entry service catalog. -/
def demoCatalog : List ODataEntity :=
  [⟨"Customers", "CustomersV3"⟩, ⟨"Vendors", "VendorsV2"⟩]

/-- A concrete scoring function satisfying the spec's constraints on the
fuzzy scorer: identical strings score `0`, anything else scores `1`. -/
def exactScore : String → String → ℚ :=
  fun a b => if a == b then 0 else 1

/-- A schema with one primitive field and one enumeration-typed field, as
`fetchAndParseMetadata` would produce for a purchase-order entity type. -/
def purchSchema : EntitySchema :=
  ⟨"PurchaseOrderHeaderV2",
   [⟨"dataAreaId", "Edm.String", true⟩,
    ⟨"PurchaseOrderStatus", "Microsoft.Dynamics.DataEntities.PurchStatus", false⟩]⟩

/-- A metadata document whose container declares entity sets (`Customers`
holding type `Customer`, `CustomerGroup` holding type `CustGroup`) with set
names different from the type names. -/
def c1doc : MetadataDoc :=
  ⟨[{ entityTypes :=
        [⟨"Customer", [⟨"CustomerAccount"⟩], [⟨"CustomerAccount", "Edm.String"⟩]⟩,
         ⟨"CustGroup", [], [⟨"GroupId", "Edm.String"⟩]⟩],
      entitySets := [⟨"Customers", "Customer"⟩, ⟨"CustomerGroup", "CustGroup"⟩] }]⟩

/-- `c1doc` with its container declarations removed and the entity types
kept unchanged. -/
def c1docNoSets : MetadataDoc :=
  ⟨[{ entityTypes :=
        [⟨"Customer", [⟨"CustomerAccount"⟩], [⟨"CustomerAccount", "Edm.String"⟩]⟩,
         ⟨"CustGroup", [], [⟨"GroupId", "Edm.String"⟩]⟩],
      entitySets := [] }]⟩

/-- A schema cache holding both a plural-named and a singular-named key. -/
def demoSchemaCache : List (String × EntitySchema) :=
  [("Customers", ⟨"Customers", []⟩), ("Customer", ⟨"Customer", []⟩)]

/-- The cache system after one caller populated the cache from a *failed*
catalog fetch: the empty list is cached. -/
def failedState : CacheSys (List ODataEntity) :=
  runCache (fetchEntityList (Except.error "network failure"))
    (initCache (List ODataEntity)) [CacheEv.check 0, CacheEv.complete 0]

/-! ## Theorems -/

/-- Joining a single clause inserts no conjunction. -/
theorem intercalate_singleton (s a : String) : String.intercalate s [a] = a := rfl

/-- C8: `build(filters, schema)` returns null exactly when the filter map is
absent or empty or the schema is null/absent; in every other case it returns
a string (the returned option is `some`). -/
theorem c8_build_null_cases (filterObject : Option (List (String × String)))
    (schema : Option EntitySchema) :
    (buildSmartFilterString filterObject schema).1 = none
      ↔ (filterObject = none ∨ schema = none ∨ filterObject = some []) := by
  match filterObject, schema with
  | none, _ => simp [buildSmartFilterString]
  | some fo, none => simp [buildSmartFilterString]
  | some fo, some sch =>
    cases fo with
    | nil => simp [buildSmartFilterString]
    | cons kv rest => simp [buildSmartFilterString]

/-- C9: `getEntitySchema` never lets the plural-stripping fallback override a
direct hit — a name that is a key of the schema map returns that key's
schema; on a direct miss, the fallback fires exactly when the name ends in
`'s'`, returning the lookup of the name with one trailing `'s'` removed; and
a direct miss on a name not ending in `'s'` is not-found. -/
theorem c9_direct_hit_precedence (cache : List (String × EntitySchema)) (name : String) :
    (∀ s, recordGet cache name = some s → getEntitySchema cache name = some s)
    ∧ (recordGet cache name = none → strEndsWith name "s" = true →
        getEntitySchema cache name = recordGet cache (strDropRight name 1))
    ∧ (recordGet cache name = none → strEndsWith name "s" = false →
        getEntitySchema cache name = none) := by
  refine ⟨fun s h => ?_, fun h h2 => ?_, fun h h2 => ?_⟩
  · simp [getEntitySchema, h]
  · simp [getEntitySchema, h, h2]
  · simp [getEntitySchema, h, h2]

/-- Witness for C9 on a cache holding both `Customers` and `Customer`: the
direct hit on `Customers` wins over the singular fallback, `Customerss`
falls back to the key with exactly one trailing `'s'` stripped, and a
directly-missing name not ending in `'s'` is not-found. -/
theorem c9_witness :
    getEntitySchema demoSchemaCache "Customers" = some ⟨"Customers", []⟩
    ∧ getEntitySchema demoSchemaCache "Customerss" = some ⟨"Customers", []⟩
    ∧ getEntitySchema demoSchemaCache "Widget" = none := by
  refine ⟨(c9_direct_hit_precedence demoSchemaCache "Customers").1 _ (by decide), ?_, ?_⟩
  · rw [(c9_direct_hit_precedence demoSchemaCache "Customerss").2.1 (by decide) (by decide)]
    decide
  · exact (c9_direct_hit_precedence demoSchemaCache "Widget").2.2 (by decide) (by decide)

/-- C4: for a filter entry matching a schema field, the emitted clause is
type-directed: a declared type that does not start with `Edm.` (a qualified
enumeration) produces `field eq TypeName'value'` with the field's full
qualified type name, while an `Edm.`-prefixed (primitive) type produces the
string-quoted `field eq 'value'`. -/
theorem c4_enum_vs_primitive_clause (schema : EntitySchema) (k v : String)
    (f : SchemaField) (h : findField schema k = some f) :
    (strStartsWith f.type "Edm." = false →
      buildSmartFilterString (some [(k, v)]) (some schema)
        = (some (f.name ++ " eq " ++ f.type ++ "'" ++ v ++ "'"), []))
    ∧ (strStartsWith f.type "Edm." = true →
      buildSmartFilterString (some [(k, v)]) (some schema)
        = (some (f.name ++ " eq '" ++ v ++ "'"), [])) := by
  constructor <;> intro ht <;>
    simp [buildSmartFilterString, clauseFor, h, ht, intercalate_singleton]

/-- Witness for C4: the spec's own two examples, evaluated on a concrete
schema — the enumeration-typed `PurchaseOrderStatus` and the primitive
`dataAreaId`. -/
theorem c4_witness :
    buildSmartFilterString (some [("PurchaseOrderStatus", "Received")]) (some purchSchema)
      = (some "PurchaseOrderStatus eq Microsoft.Dynamics.DataEntities.PurchStatus'Received'", [])
    ∧ buildSmartFilterString (some [("dataAreaId", "usmf")]) (some purchSchema)
      = (some "dataAreaId eq 'usmf'", []) := by
  constructor
  · rw [(c4_enum_vs_primitive_clause purchSchema "PurchaseOrderStatus" "Received"
      ⟨"PurchaseOrderStatus", "Microsoft.Dynamics.DataEntities.PurchStatus", false⟩
      (by decide)).1 (by decide)]
    decide
  · rw [(c4_enum_vs_primitive_clause purchSchema "dataAreaId" "usmf"
      ⟨"dataAreaId", "Edm.String", true⟩ (by decide)).2 (by decide)]
    decide

/-- C7: a filter key with no case-insensitive match among the schema's
fields produces the raw string-literal clause built from the caller's own
key, and emits one warning-level message naming that key — the result is
still a normal filter string, not an error. -/
theorem c7_unknown_field_fallback (schema : EntitySchema) (k v : String)
    (h : findField schema k = none) :
    buildSmartFilterString (some [(k, v)]) (some schema)
      = (some (k ++ " eq '" ++ v ++ "'"),
         ["Field '" ++ k ++ "' not found in schema for '" ++ schema.name ++
          "'. Defaulting to string filter."]) := by
  simp [buildSmartFilterString, clauseFor, h, intercalate_singleton]

/-- Witness for C7: the spec's example `build({unknownField:'x'}, schema)`. -/
theorem c7_witness :
    buildSmartFilterString (some [("unknownField", "x")]) (some purchSchema)
      = (some "unknownField eq 'x'",
         ["Field 'unknownField' not found in schema for 'PurchaseOrderHeaderV2'. Defaulting to string filter."]) := by
  rw [c7_unknown_field_fallback purchSchema "unknownField" "x" (by decide)]
  decide

/-- C10: a filter key that matches a schema field case-insensitively yields
a clause built from the field name exactly as stored in the schema — the
clause is the same as if the caller had used the canonical spelling, it
begins with the canonical field name, and no fallback warning is emitted. -/
theorem c10_canonical_casing (schema : EntitySchema) (k v : String)
    (f : SchemaField) (h : findField schema k = some f) :
    clauseFor schema k v = clauseFor schema f.name v
    ∧ (∃ rest, (clauseFor schema k v).1 = f.name ++ rest)
    ∧ (clauseFor schema k v).2 = none := by
  have hfind : List.find? (fun g : SchemaField => toLowerStr g.name == toLowerStr k)
      schema.fields = some f := h
  have hp : (toLowerStr f.name == toLowerStr k) = true := by
    simpa using List.find?_some hfind
  have hpe : toLowerStr f.name = toLowerStr k := eq_of_beq hp
  have hf : findField schema f.name = some f := by
    unfold findField at h ⊢
    rw [show (fun g => toLowerStr g.name == toLowerStr f.name)
          = (fun g : SchemaField => toLowerStr g.name == toLowerStr k) from ?_]
    · exact h
    · funext g
      rw [hpe]
  refine ⟨?_, ?_, ?_⟩
  · rw [clauseFor, clauseFor, h, hf]
  · rw [clauseFor, h]
    cases hs : strStartsWith f.type "Edm."
    · exact ⟨" eq " ++ f.type ++ "'" ++ v ++ "'", by simp [hs, String.append_assoc]⟩
    · exact ⟨" eq '" ++ v ++ "'", by simp [hs, String.append_assoc]⟩
  · rw [clauseFor, h]
    cases hs : strStartsWith f.type "Edm." <;> simp [hs]

/-- Witness for C10: the key `purchaseorderstatus` matches the schema field
`PurchaseOrderStatus` case-insensitively and the clause uses the canonical
casing. -/
theorem c10_witness :
    clauseFor purchSchema "purchaseorderstatus" "Received"
      = clauseFor purchSchema "PurchaseOrderStatus" "Received"
    ∧ (∃ rest, (clauseFor purchSchema "purchaseorderstatus" "Received").1
        = "PurchaseOrderStatus" ++ rest)
    ∧ (clauseFor purchSchema "purchaseorderstatus" "Received").2 = none :=
  c10_canonical_casing purchSchema "purchaseorderstatus" "Received"
    ⟨"PurchaseOrderStatus", "Microsoft.Dynamics.DataEntities.PurchStatus", false⟩
    (by decide)

/-- A JS object read after an assignment: the assigned key returns the new
value, every other key is unaffected. -/
theorem recordGet_recordSet {α : Type} (m : List (String × α)) (k kq : String) (v : α) :
    recordGet (recordSet m k v) kq
      = if (k == kq) = true then some v else recordGet m kq := by
  induction m with
  | nil => simp [recordSet, recordGet]
  | cons p rest ih =>
    simp only [recordSet]
    by_cases hpk : (p.1 == k) = true
    · rw [if_pos hpk]
      have h1 : p.1 = k := eq_of_beq hpk
      by_cases hk : (k == kq) = true
      · simp [recordGet, hk]
      · have hpq : (p.1 == kq) = false := by
          rw [h1]
          exact beq_eq_false_iff_ne.mpr fun hc => hk (beq_iff_eq.mpr hc)
        simp [recordGet, hk, hpq]
    · rw [if_neg hpk]
      by_cases hk : (k == kq) = true
      · have h2 : k = kq := eq_of_beq hk
        have hpq : (p.1 == kq) = false := by
          exact beq_eq_false_iff_ne.mpr fun hc => hpk (beq_iff_eq.mpr (hc.trans h2.symm))
        simp [recordGet, ih, hk, hpq]
      · simp [recordGet, ih, hk]

/-- A key present after folding a list of entity types into the schema map
was either present before or is one of the folded entity-type names. -/
theorem recordGet_foldl_entityTypes (ets : List EntityTypeDecl)
    (m : List (String × EntitySchema)) (kq : String)
    (h : (recordGet (ets.foldl (fun m e => recordSet m e.name (parseEntityType e)) m)
        kq).isSome = true) :
    (recordGet m kq).isSome = true ∨ kq ∈ ets.map EntityTypeDecl.name := by
  induction ets generalizing m with
  | nil => simpa using h
  | cons e rest ih =>
    rw [List.foldl_cons] at h
    rcases ih _ h with h2 | h2
    · rw [recordGet_recordSet] at h2
      by_cases he : (e.name == kq) = true
      · right
        have h3 : e.name = kq := eq_of_beq he
        rw [List.map_cons, ← h3]
        exact List.mem_cons_self _ _
      · rw [if_neg he] at h2
        exact Or.inl h2
    · right
      rw [List.map_cons]
      exact List.mem_cons_of_mem _ h2

/-- Every key of the map produced by `fetchAndParseMetadata` is a declared
entity-type name of the document. -/
theorem recordGet_fetchAndParseMetadata (doc : MetadataDoc) (kq : String)
    (h : (recordGet (fetchAndParseMetadata doc) kq).isSome = true) :
    kq ∈ declaredTypeNames doc := by
  suffices hgen : ∀ (schemas : List SchemaDecl) (m : List (String × EntitySchema)),
      (recordGet (schemas.foldl (fun m schema => schema.entityTypes.foldl
          (fun m e => recordSet m e.name (parseEntityType e)) m) m) kq).isSome = true →
        (recordGet m kq).isSome = true
        ∨ kq ∈ schemas.flatMap (fun sch => sch.entityTypes.map EntityTypeDecl.name) by
    rcases hgen doc.schemas [] h with h2 | h2
    · simp [recordGet] at h2
    · exact h2
  intro schemas
  induction schemas with
  | nil =>
    intro m h2
    left
    simpa using h2
  | cons sch rest ih =>
    intro m h2
    rw [List.foldl_cons] at h2
    rcases ih _ h2 with h3 | h3
    · rcases recordGet_foldl_entityTypes _ _ _ h3 with h4 | h4
      · exact Or.inl h4
      · right
        rw [List.flatMap_cons]
        exact List.mem_append_left _ h4
    · right
      rw [List.flatMap_cons]
      exact List.mem_append_right _ h3

/-- The schema map depends only on the entity-type declarations: two
documents with the same entity types parse identically, whatever their
container declarations say. -/
theorem fetchAndParseMetadata_ignores_entitySets (d₁ d₂ : MetadataDoc)
    (h : d₁.schemas.map SchemaDecl.entityTypes = d₂.schemas.map SchemaDecl.entityTypes) :
    fetchAndParseMetadata d₁ = fetchAndParseMetadata d₂ := by
  have key : ∀ (schemas : List SchemaDecl) (m : List (String × EntitySchema)),
      schemas.foldl (fun m schema => schema.entityTypes.foldl
          (fun m e => recordSet m e.name (parseEntityType e)) m) m
        = (schemas.map SchemaDecl.entityTypes).foldl (fun m ets => ets.foldl
            (fun m e => recordSet m e.name (parseEntityType e)) m) m := by
    intro schemas
    induction schemas with
    | nil => intro m; rfl
    | cons sch rest ih =>
      intro m
      simp only [List.foldl_cons, List.map_cons]
      exact ih _
  unfold fetchAndParseMetadata
  rw [key, key, h]

/-- C1 counterexample: on `c1doc`, the name `Customer` is absent from the
entity-set index (the container only declares the sets `Customers` and
`CustomerGroup`), yet `getEntitySchema` returns a schema for it — the lookup
assumes set name == type name instead of resolving through the index.
Conversely the declared set `CustomerGroup` is in the index but resolves to
nothing. -/
theorem c1_counterexample :
    ((getEntitySchema (fetchAndParseMetadata c1doc) "Customer").isSome = true
      ∧ specIndexLookup c1doc "Customer" = none)
    ∧ (specIndexLookup c1doc "CustomerGroup" = some "CustGroup"
      ∧ getEntitySchema (fetchAndParseMetadata c1doc) "CustomerGroup" = none) := by
  decide

/-- C1 amended: `getEntitySchema` resolves the requested name directly
against the schema map keyed by entity-type names (with the trailing-`'s'`
fallback), so a schema is returned only for a declared entity-type name or
its re-pluralization; the container's entity-set declarations are ignored
entirely — parsing two documents with the same entity types and different
entity-set declarations yields the same schema map. -/
theorem c1_amended :
    (∀ (doc : MetadataDoc) (name : String) (s : EntitySchema),
        getEntitySchema (fetchAndParseMetadata doc) name = some s →
          name ∈ declaredTypeNames doc
          ∨ (strEndsWith name "s" = true
              ∧ strDropRight name 1 ∈ declaredTypeNames doc))
    ∧ (∀ d₁ d₂ : MetadataDoc,
        d₁.schemas.map SchemaDecl.entityTypes = d₂.schemas.map SchemaDecl.entityTypes →
          fetchAndParseMetadata d₁ = fetchAndParseMetadata d₂) := by
  constructor
  · intro doc name s h
    by_cases hg : (recordGet (fetchAndParseMetadata doc) name).isSome = true
    · exact Or.inl (recordGet_fetchAndParseMetadata doc name hg)
    · have hg2 : recordGet (fetchAndParseMetadata doc) name = none := by
        cases hx : recordGet (fetchAndParseMetadata doc) name with
        | none => rfl
        | some s2 => rw [hx] at hg; simp at hg
      simp only [getEntitySchema, hg2] at h
      by_cases he : strEndsWith name "s" = true
      · rw [if_pos he] at h
        exact Or.inr ⟨he, recordGet_fetchAndParseMetadata doc _ (by rw [h]; rfl)⟩
      · rw [if_neg he] at h
        exact absurd h (by simp)
  · exact fun d₁ d₂ h => fetchAndParseMetadata_ignores_entitySets d₁ d₂ h

/-- Witness for C1 (amended): the name `Customer` resolves on `c1doc`
because it is a declared type name, and stripping the container declarations
from `c1doc` leaves the parsed schema map unchanged. -/
theorem c1_witness :
    ("Customer" ∈ declaredTypeNames c1doc
      ∨ (strEndsWith "Customer" "s" = true
          ∧ strDropRight "Customer" 1 ∈ declaredTypeNames c1doc))
    ∧ fetchAndParseMetadata c1doc = fetchAndParseMetadata c1docNoSets :=
  ⟨c1_amended.1 c1doc "Customer"
      ⟨"Customer", [⟨"CustomerAccount", "Edm.String", true⟩]⟩ (by decide),
   c1_amended.2 c1doc c1docNoSets (by decide)⟩

/-- C5: resolving a name that is already the canonical name of a catalog
entry returns that same name.  The scoring function is abstract (fuse.js is
external); the hypotheses state the spec's constraints on it: identical
strings score `0`, scores are nonnegative, and — ruling out pathological
catalogs — every entry scoring `0` against the query carries the same
canonical name. -/
theorem c5_resolve_canonical (score : String → String → ℚ)
    (catalog : List ODataEntity) (e : ODataEntity)
    (hrefl : ∀ s, score s s = 0)
    (hnn : ∀ a b, 0 ≤ score a b)
    (he : e ∈ catalog)
    (huniq : ∀ e₂ ∈ catalog, entityScore score e.url e₂ = 0 → e₂.url = e.url) :
    findBestMatchResolved score catalog e.url = some e.url := by
  have hscore : entityScore score e.url e = 0 := by
    unfold entityScore
    rw [hrefl]
    exact min_eq_right (hnn _ _)
  have hth : (0:ℚ) ≤ FUZZY_THRESHOLD := by decide
  have hne : catalog.isEmpty = false := by
    cases catalog
    · cases he
    · rfl
  have hmemL : (e, entityScore score e.url e)
      ∈ (catalog.map (fun x => (x, entityScore score e.url x))).filter
          (fun r => r.2 ≤ FUZZY_THRESHOLD) := by
    refine List.mem_filter.mpr ⟨List.mem_map_of_mem _ he, ?_⟩
    simp only [decide_eq_true_eq, hscore]
    exact hth
  obtain ⟨m, hm⟩ : ∃ m, ((catalog.map (fun x => (x, entityScore score e.url x))).filter
      (fun r => r.2 ≤ FUZZY_THRESHOLD)).argmin Prod.snd = some m := by
    cases hx : ((catalog.map (fun x => (x, entityScore score e.url x))).filter
        (fun r => r.2 ≤ FUZZY_THRESHOLD)).argmin Prod.snd with
    | none =>
      rw [List.argmin_eq_none] at hx
      rw [hx] at hmemL
      cases hmemL
    | some m => exact ⟨m, rfl⟩
  have hmL : m ∈ (catalog.map (fun x => (x, entityScore score e.url x))).filter
      (fun r => r.2 ≤ FUZZY_THRESHOLD) := List.argmin_mem hm
  have hle : Prod.snd m ≤ Prod.snd (e, entityScore score e.url e) :=
    List.le_of_mem_argmin hmemL hm
  have hmdata : m.1 ∈ catalog ∧ entityScore score e.url m.1 = m.2 := by
    rcases List.mem_filter.mp hmL with ⟨hmm, _⟩
    rcases List.mem_map.mp hmm with ⟨x, hx, rfl⟩
    exact ⟨hx, rfl⟩
  have hge : 0 ≤ m.2 := by
    rw [← hmdata.2]
    unfold entityScore
    exact le_min (hnn _ _) (hnn _ _)
  have hm0 : m.2 = 0 := le_antisymm (by simpa [hscore] using hle) hge
  have hurl : m.1.url = e.url := huniq m.1 hmdata.1 (by rw [hmdata.2, hm0])
  unfold findBestMatchResolved
  rw [hne]
  simp only [Bool.false_eq_true, if_false]
  unfold fuseSearch
  rw [hm]
  show (if m.2 ≤ FUZZY_THRESHOLD then some m.1.url else none) = some e.url
  rw [if_pos (by rw [hm0]; exact hth), hurl]

/-- Witness for C5: on the concrete two-entry catalog with the exact-match
scorer, resolving the canonical name `CustomersV3` returns `CustomersV3`. -/
theorem c5_witness :
    findBestMatchResolved exactScore demoCatalog "CustomersV3" = some "CustomersV3" :=
  c5_resolve_canonical exactScore demoCatalog ⟨"Customers", "CustomersV3"⟩
    (fun s => by simp [exactScore])
    (fun a b => by
      unfold exactScore
      split
      · exact le_refl 0
      · exact zero_le_one)
    (by decide)
    (by decide)

/-- C6: when every catalog entry's similarity score is worse (greater) than
the acceptance threshold, resolution returns not-found — the plain value
`none`, not an error. -/
theorem c6_no_candidate_clears_threshold (score : String → String → ℚ)
    (catalog : List ODataEntity) (q : String)
    (h : ∀ e ∈ catalog, FUZZY_THRESHOLD < entityScore score q e) :
    findBestMatchResolved score catalog q = none := by
  have hfilter : (catalog.map (fun e => (e, entityScore score q e))).filter
      (fun r => r.2 ≤ FUZZY_THRESHOLD) = [] := by
    rw [List.filter_eq_nil_iff]
    intro r hr
    rcases List.mem_map.mp hr with ⟨x, hx, rfl⟩
    simp only [decide_eq_true_eq]
    exact not_le.mpr (h x hx)
  unfold findBestMatchResolved fuseSearch
  rw [hfilter, List.argmin_nil]
  cases catalog.isEmpty <;> simp

/-- Witness for C6: the query `zzznotreal` scores `1 > 0.6` against both
demo catalog entries under the exact-match scorer, and resolution returns
`none`. -/
theorem c6_witness :
    findBestMatchResolved exactScore demoCatalog "zzznotreal" = none :=
  c6_no_candidate_clears_threshold exactScore demoCatalog "zzznotreal" (by decide)

/-- Running a schedule step by step. -/
theorem runCache_cons {α : Type} (net : α) (s : CacheSys α) (ev : CacheEv)
    (evs : List CacheEv) :
    runCache net s (ev :: evs) = runCache net (cacheStep net s ev) evs := rfl

/-- Every caller whose cache check runs while the cache is still unpopulated
starts its own fetch: running the checks of any duplicate-free set of
fresh callers from a state with an empty cache adds one fetch per caller. -/
theorem runCache_checks {α : Type} (net : α) (is : List Nat) :
    ∀ (s : CacheSys α), s.cache = none →
      (∀ i ∈ is, s.callers i = CallerPhase.start) → is.Nodup →
      (runCache net s (is.map CacheEv.check)).fetchCount = s.fetchCount + is.length := by
  induction is with
  | nil => intro s _ _ _; simp [runCache]
  | cons i rest ih =>
    intro s hn hst hnd
    have hstep : cacheStep net s (CacheEv.check i)
        = { cache := none, fetchCount := s.fetchCount + 1,
            callers := fun j => if j = i then CallerPhase.waiting else s.callers j } := by
      simp only [cacheStep, hst i (List.mem_cons_self i rest), hn]
    have hnotmem : i ∉ rest := (List.nodup_cons.mp hnd).1
    have hrec := ih
      (⟨none, s.fetchCount + 1,
        fun j => if j = i then CallerPhase.waiting else s.callers j⟩ : CacheSys α)
      rfl
      (fun j hj => by
        have hji : j ≠ i := fun hc => hnotmem (hc ▸ hj)
        simp only [if_neg hji]
        exact hst j (List.mem_cons_of_mem _ hj))
      (List.nodup_cons.mp hnd).2
    rw [List.map_cons, runCache_cons, hstep, hrec]
    show s.fetchCount + 1 + rest.length = s.fetchCount + (i :: rest).length
    rw [List.length_cons]
    omega

/-- C2 counterexample: two callers whose cache checks both run before either
fetch completes (the schedule `check 0, check 1, complete 0, complete 1`)
issue two network fetches, not the single fetch the claim requires. -/
theorem c2_counterexample :
    ((runCache demoCatalog (initCache (List ODataEntity))
        [CacheEv.check 0, CacheEv.check 1, CacheEv.complete 0, CacheEv.complete 1]).fetchCount
      = 2)
    ∧ ¬((runCache demoCatalog (initCache (List ODataEntity))
        [CacheEv.check 0, CacheEv.check 1, CacheEv.complete 0, CacheEv.complete 1]).fetchCount
      = 1) := by
  decide

/-- C2 amended: the lazy populate is not single-flight.  For every `N`, a
schedule in which `N` distinct callers all run their cache check before any
fetch completes performs exactly `N` fetches — one per caller that observed
the unpopulated cache — rather than one in total. -/
theorem c2_fetch_per_concurrent_caller (α : Type) (net : α) (N : Nat) :
    (runCache net (initCache α) ((List.range N).map CacheEv.check)).fetchCount = N := by
  have h := runCache_checks net (List.range N) (initCache α) rfl (fun i _ => rfl)
    (List.nodup_range N)
  simpa [initCache] using h

/-- C3 counterexample: after a failed catalog fetch (`check 0, complete 0`
with the fetch erroring, so the empty list is cached), a subsequent call
(`check 1`) completes without issuing any new fetch — the fetch count stays
at `1`, refuting the claim that the failure is not cached permanently and
that a subsequent call may retry. -/
theorem c3_counterexample :
    ((runCache (fetchEntityList (Except.error "network failure"))
        (initCache (List ODataEntity))
        [CacheEv.check 0, CacheEv.complete 0, CacheEv.check 1]).fetchCount = 1)
    ∧ ((runCache (fetchEntityList (Except.error "network failure"))
        (initCache (List ODataEntity))
        [CacheEv.check 0, CacheEv.complete 0, CacheEv.check 1]).cache = some [])
    ∧ ((runCache (fetchEntityList (Except.error "network failure"))
        (initCache (List ODataEntity))
        [CacheEv.check 0, CacheEv.complete 0, CacheEv.check 1]).callers 1
      = CallerPhase.done) := by
  decide

/-- C3 amended: a failed catalog fetch is absorbed — resolution over the
empty catalog it produces returns not-found rather than throwing — but the
empty result is cached for good: from any state whose cache is populated, no
schedule ever issues another fetch (and the cache stays populated), so
subsequent calls do not retry. -/
theorem c3_failure_cached_not_retried :
    (∀ (score : String → String → ℚ) (q msg : String),
        findBestMatchResolved score (fetchEntityList (Except.error msg)) q = none)
    ∧ (∀ (α : Type) (net : α) (s : CacheSys α) (evs : List CacheEv),
        s.cache.isSome = true →
          (runCache net s evs).fetchCount = s.fetchCount
          ∧ (runCache net s evs).cache.isSome = true) := by
  constructor
  · intro score q msg
    rfl
  · intro α net s evs
    induction evs generalizing s with
    | nil => intro h; exact ⟨rfl, h⟩
    | cons ev rest ih =>
      intro h
      have hstep : (cacheStep net s ev).fetchCount = s.fetchCount
          ∧ (cacheStep net s ev).cache.isSome = true := by
        obtain ⟨c, hc⟩ := Option.isSome_iff_exists.mp h
        cases ev with
        | check i =>
          cases hph : s.callers i with
          | start => simp [cacheStep, hph, hc]
          | waiting => simp [cacheStep, hph, h]
          | done => simp [cacheStep, hph, h]
        | complete i =>
          cases hph : s.callers i with
          | start => simp [cacheStep, hph, h]
          | waiting => simp [cacheStep, hph]
          | done => simp [cacheStep, hph, h]
      rcases ih (cacheStep net s ev) hstep.2 with ⟨h1, h2⟩
      rw [runCache_cons]
      exact ⟨h1.trans hstep.1, h2⟩

/-- Witness for C3 (amended): with the concrete failed fetch, resolution of
`CustomersV3` over the resulting empty catalog is not-found, and one more
caller checking after the failure was cached (`failedState`) causes no new
fetch while the cached empty catalog persists. -/
theorem c3_witness :
    findBestMatchResolved exactScore
        (fetchEntityList (Except.error "network failure")) "CustomersV3" = none
    ∧ ((runCache (fetchEntityList (Except.error "network failure")) failedState
          [CacheEv.check 1]).fetchCount = failedState.fetchCount
      ∧ (runCache (fetchEntityList (Except.error "network failure")) failedState
          [CacheEv.check 1]).cache.isSome = true) :=
  ⟨c3_failure_cached_not_retried.1 exactScore "CustomersV3" "network failure",
   c3_failure_cached_not_retried.2 (List ODataEntity)
     (fetchEntityList (Except.error "network failure")) failedState
     [CacheEv.check 1] (by decide)⟩

end FnO
